import Mathlib

/-!
# Verification of the Auditly tenant-scoped authorization model

Shallow embedding of the repository's middleware (`cacheMiddleware.ts`:
`cache`, `requireAuth`, `requireRole`), the tenant-scoped user service
(`user.service.ts`) and the user routes, together with proofs of the
spec's claims about them.

The Prisma store is modelled as a list of user rows in natural order;
`findMany`/`findFirst`/`updateMany`/`deleteMany`/`create` are embedded
with their documented semantics (`where` filter, `skip`/`take`
pagination, `select` projection, row count results).
-/

namespace Auditly

/-- `UserRole` from `authMiddleware`: `"OWNER" | "ADMIN" | "USER"`. -/
inductive Role where
  | OWNER
  | ADMIN
  | USER
deriving DecidableEq, Repr

/-- The role union accepted by `createUser`/`updateUser` in
`user.service.ts` (and by the route schemas): `"ADMIN" | "USER"` —
`OWNER` is not a member of this type. -/
inductive WritableRole where
  | ADMIN
  | USER
deriving DecidableEq, Repr

/-- Injection of the service-writable roles into the full role enum. -/
def WritableRole.toRole : WritableRole → Role
  | .ADMIN => .ADMIN
  | .USER => .USER

/-- A persisted `User` row (spec §3 data model; Prisma `user` table). -/
structure User where
  id : String
  name : String
  email : String
  passwordHash : String
  role : Role
  companyId : String
  createdAt : Nat
  updatedAt : Nat
deriving DecidableEq, Repr

/-- The sanitized projection produced by the `select` clause used by every
read in `user.service.ts`: `{id, name, email, role, createdAt, updatedAt}`.
There is no password field in this structure. -/
structure SafeUser where
  id : String
  name : String
  email : String
  role : Role
  createdAt : Nat
  updatedAt : Nat
deriving DecidableEq, Repr

/-- The `select { id, name, email, role, createdAt, updatedAt }` projection. -/
def selectSafe (u : User) : SafeUser :=
  { id := u.id, name := u.name, email := u.email, role := u.role,
    createdAt := u.createdAt, updatedAt := u.updatedAt }

/-- The user table, in the store's natural order. -/
abbrev Store := List User

/-- `AppError` from `utils/appError`: message, HTTP status code, optional
error code string. -/
structure AppError where
  message : String
  statusCode : Nat
  code : Option String
deriving DecidableEq, Repr

/-- The `where: { id, companyId }` filter shared by `getUserById`,
`updateUser` and `deleteUser`. -/
def matchesIdCompany (companyId id : String) (u : User) : Bool :=
  u.id == id && u.companyId == companyId

/-- `UserService.getAllUsers(companyId, page = 1, limit = 10)`:
`findMany({ where: { companyId }, take: limit, skip: (page-1)*limit,
select: ... })`. -/
def getAllUsers (store : Store) (companyId : String) (page limit : Nat) :
    List SafeUser :=
  let skip := (page - 1) * limit
  ((((store.filter (fun u => u.companyId == companyId)).drop skip).take
    limit).map selectSafe)

/-- `UserService.getUserById(companyId, id)`:
`findFirst({ where: { id, companyId }, select: ... })`, throwing
`AppError("User not found", 404)` when no row matches. -/
def getUserById (store : Store) (companyId id : String) :
    Except AppError SafeUser :=
  match store.find? (matchesIdCompany companyId id) with
  | none => .error ⟨"User not found", 404, none⟩
  | some u => .ok (selectSafe u)

/-- The `Partial<{name, email, role: "ADMIN" | "USER"}>` update payload of
`UserService.updateUser`. -/
structure UpdateUserData where
  name : Option String
  email : Option String
  role : Option WritableRole
deriving DecidableEq, Repr

/-- Applying an `updateMany` `data` object to one matching row: provided
fields overwrite, absent fields are left untouched. -/
def applyUpdate (d : UpdateUserData) (u : User) : User :=
  { u with
    name := d.name.getD u.name
    email := d.email.getD u.email
    role := (d.role.map WritableRole.toRole).getD u.role }

/-- `UserService.updateUser(companyId, id, data)`:
`updateMany({ where: { id, companyId }, data })` — updates every matching
row and returns the matched-row count. Note the source performs no
zero-count check: the call always succeeds. -/
def updateUser (store : Store) (companyId id : String)
    (d : UpdateUserData) : Except AppError (Store × Nat) :=
  .ok
    (store.map (fun u =>
        if matchesIdCompany companyId id u then applyUpdate d u else u),
      (store.filter (matchesIdCompany companyId id)).length)

/-- `UserService.deleteUser(companyId, id)`:
`deleteMany({ where: { id, companyId } })`, throwing
`AppError("User not found", 404)` when `result.count === 0`. -/
def deleteUser (store : Store) (companyId id : String) :
    Except AppError Store :=
  if (store.filter (matchesIdCompany companyId id)).length == 0 then
    .error ⟨"User not found", 404, none⟩
  else
    .ok (store.filter (fun u => !matchesIdCompany companyId id u))

/-- The `data` object of `UserService.createUser`: name, email, password,
optional role (`"ADMIN" | "USER"`), companyId. -/
structure CreateUserData where
  name : String
  email : String
  password : String
  role : Option WritableRole
  companyId : String
deriving DecidableEq, Repr

/-- Modelled from the spec: the Prisma schema file (absent from the source
tree) supplies the column default applied by `prisma.user.create` when
`data.role` is omitted; per the spec, "role defaults to USER if omitted". -/
def roleOfCreate (r : Option WritableRole) : Role :=
  (r.map WritableRole.toRole).getD Role.USER

/-- `UserService.createUser(data)`: `prisma.user.create({ data, select })`
— persists a new row (id and timestamps supplied by the store) and returns
the `select`-sanitized record. -/
def createUser (store : Store) (newId : String) (now : Nat)
    (d : CreateUserData) : Store × SafeUser :=
  let u : User :=
    { id := newId, name := d.name, email := d.email,
      passwordHash := d.password, role := roleOfCreate d.role,
      companyId := d.companyId, createdAt := now, updatedAt := now }
  (store ++ [u], selectSafe u)

/-! ## Middleware (`cacheMiddleware.ts`) -/

/-- `CacheOptions` with optional `duration` (seconds). -/
structure CacheOptions where
  duration : Option Nat
deriving DecidableEq, Repr

/-- HTTP request method, as observed by the cache middleware. -/
inductive Method where
  | GET
  | POST
  | PATCH
  | DELETE
  | PUT
deriving DecidableEq, Repr

/-- The response headers set by the `cache` middleware. -/
structure CacheHeaders where
  cacheControl : Option String
  vary : Option String
deriving DecidableEq, Repr

/-- The `cache(options)` middleware: non-GET requests get
`Cache-Control: no-store`; non-production environments get
`Cache-Control: no-store`; otherwise `private, max-age=<duration>` plus
`Vary: Authorization`, with duration defaulting to 300. -/
def cache (options : CacheOptions) (method : Method) (nodeEnv : String) :
    CacheHeaders :=
  let duration := options.duration.getD 300
  if method ≠ Method.GET then
    { cacheControl := some "no-store", vary := none }
  else if nodeEnv ≠ "production" then
    { cacheControl := some "no-store", vary := none }
  else
    { cacheControl := some ("private, max-age=" ++ toString duration),
      vary := some "Authorization" }

/-- `JwtPayload` attached to the request by `requireAuth`:
`{userId, companyId, role}`. -/
structure JwtPayload where
  userId : String
  companyId : String
  role : Role
deriving DecidableEq, Repr

/-- JavaScript `String.prototype.split` on a single-character separator,
over the character list of the string. -/
def jsSplitAux (sep : Char) : List Char → List Char → List (List Char)
  | [], acc => [acc.reverse]
  | c :: rest, acc =>
      if c = sep then acc.reverse :: jsSplitAux sep rest []
      else jsSplitAux sep rest (c :: acc)

/-- JavaScript `s.split(sep)` for a one-character separator. -/
def jsSplit (sep : Char) (s : String) : List String :=
  (jsSplitAux sep s.data []).map (fun l => ⟨l⟩)

/-- JavaScript `s.startsWith(p)`. -/
def jsStartsWith (s p : String) : Bool :=
  p.data.isPrefixOf s.data

/-- Token extraction in `requireAuth`:
`authHeader?.startsWith("Bearer ") ? authHeader.split(" ")[1] : null`. -/
def bearerToken (authHeader : Option String) : Option String :=
  match authHeader with
  | none => none
  | some h =>
      if jsStartsWith h "Bearer " then (jsSplit ' ' h).get? 1 else none

/-- The error produced by `requireAuth`'s catch block: every failure —
missing/malformed header or failed `jwt.verify` — surfaces uniformly as
this 401. -/
def authFailedError : AppError :=
  ⟨"Unauthorized - Invalid or expired token", 401, some "INVALID_TOKEN"⟩

/-- `requireAuth`: extract the bearer token (absent or empty token is
falsy, so it throws "No token provided"; the catch block converts every
thrown error to `authFailedError`), verify it (`jwt.verify`, modelled as a
function returning `none` on any verification failure), and attach
`{userId, companyId, role}` to the request. -/
def requireAuth (verify : String → Option JwtPayload)
    (authHeader : Option String) : Except AppError JwtPayload :=
  match bearerToken authHeader with
  | none => .error authFailedError
  | some t =>
      if t = "" then .error authFailedError
      else
        match verify t with
        | none => .error authFailedError
        | some d =>
            .ok { userId := d.userId, companyId := d.companyId,
                  role := d.role }

/-- `requireRole(roles)`: 401 when the identity context is absent, 403
when the context's role is not in `roles`, otherwise pass through. -/
def requireRole (roles : List Role) (ctx : Option JwtPayload) :
    Except AppError Unit :=
  match ctx with
  | none => .error ⟨"Unauthorized", 401, some "UNAUTHORIZED"⟩
  | some u =>
      if roles.contains u.role then .ok ()
      else
        .error ⟨"Forbidden - Insufficient permissions", 403,
          some "FORBIDDEN"⟩

/-- Running a protected route: `requireAuth` then the downstream handler.
An error short-circuits; the handler runs only on success. -/
def runProtected {α : Type} (verify : String → Option JwtPayload)
    (authHeader : Option String)
    (handler : JwtPayload → Except AppError α) : Except AppError α :=
  (requireAuth verify authHeader).bind handler

/-- The `PATCH /users/:id` route pipeline from the user routes file:
`requireAuth`, then `requireRole(["ADMIN", "OWNER"])`, then the update
handler calling `userService.updateUser(user.companyId, id, body)`. -/
def patchUserRoute (verify : String → Option JwtPayload)
    (authHeader : Option String) (pathId : String) (body : UpdateUserData)
    (store : Store) : Except AppError (Store × Nat) :=
  (requireAuth verify authHeader).bind fun user =>
    (requireRole [Role.ADMIN, Role.OWNER] (some user)).bind fun _ =>
      updateUser store user.companyId pathId body

/-! ## Operation sequences over the user service -/

/-- One invocation of a Tenant-Scoped Resource Service operation, with the
arguments the TypeScript signatures admit (in particular, the role
arguments of create/update draw from `WritableRole`). -/
inductive Op where
  | create (newId : String) (now : Nat) (d : CreateUserData)
  | update (companyId id : String) (d : UpdateUserData)
  | delete (companyId id : String)
  | get (companyId id : String)
  | list (companyId : String) (page limit : Nat)
deriving DecidableEq, Repr

/-- The store after one service operation (reads leave it unchanged; a
failed delete leaves it unchanged). -/
def applyOp (store : Store) : Op → Store
  | .create newId now d => (createUser store newId now d).1
  | .update c i d =>
      match updateUser store c i d with
      | .ok (s, _) => s
      | .error _ => store
  | .delete c i =>
      match deleteUser store c i with
      | .ok s => s
      | .error _ => store
  | .get _ _ => store
  | .list _ _ _ => store

/-- The store after a sequence of service operations. -/
def runOps (store : Store) (ops : List Op) : Store :=
  ops.foldl applyOp store

/-! ## Theorems -/

/-- C8: the Cache Advisory Layer is a pure function of request method and
environment: every non-GET request, and every request in a non-production
environment, receives `Cache-Control: no-store`; every GET request in
production receives `Cache-Control: private, max-age=<duration>` together
with `Vary: Authorization`, the duration defaulting to 300 seconds when
not configured. -/
theorem cache_spec (options : CacheOptions) (method : Method)
    (nodeEnv : String) :
    (method ≠ Method.GET →
      cache options method nodeEnv =
        { cacheControl := some "no-store", vary := none }) ∧
    (nodeEnv ≠ "production" →
      cache options method nodeEnv =
        { cacheControl := some "no-store", vary := none }) ∧
    (method = Method.GET → nodeEnv = "production" →
      cache options method nodeEnv =
        { cacheControl :=
            some ("private, max-age=" ++ toString (options.duration.getD 300)),
          vary := some "Authorization" }) ∧
    (method = Method.GET → nodeEnv = "production" →
      options.duration = none →
      cache options method nodeEnv =
        { cacheControl := some "private, max-age=300",
          vary := some "Authorization" }) := by
  refine ⟨fun h => ?_, fun h => ?_, fun h1 h2 => ?_, fun h1 h2 h3 => ?_⟩
  · simp [cache, h]
  · by_cases hm : method = Method.GET
    · subst hm; simp [cache, h]
    · simp [cache, hm]
  · subst h1; subst h2; simp [cache]
  · subst h1; subst h2; simp [cache, h3]; rfl

/-- Witness for C8 at concrete inputs: a POST in production gets
`no-store`; a GET in development gets `no-store`; a GET in production with
no configured duration gets `private, max-age=300` and
`Vary: Authorization`. -/
theorem cache_spec_witness :
    (cache ⟨none⟩ Method.POST "production" =
      { cacheControl := some "no-store", vary := none }) ∧
    (cache ⟨none⟩ Method.GET "development" =
      { cacheControl := some "no-store", vary := none }) ∧
    (cache ⟨none⟩ Method.GET "production" =
      { cacheControl := some "private, max-age=300",
        vary := some "Authorization" }) := by
  have h1 := cache_spec ⟨none⟩ Method.POST "production"
  have h2 := cache_spec ⟨none⟩ Method.GET "development"
  have h3 := cache_spec ⟨none⟩ Method.GET "production"
  exact ⟨h1.1 (by decide), h2.2.1 (by decide),
    h3.2.2.2 rfl rfl rfl⟩

/-- C6: `requireRole(roles)` succeeds exactly when the identity context's
role is a member of `roles` (no hierarchy among OWNER/ADMIN/USER); an
absent identity context fails with 401 Unauthorized, and a role outside
the set fails with 403 Forbidden. -/
theorem requireRole_spec (roles : List Role) (ctx : Option JwtPayload) :
    (ctx = none →
      requireRole roles ctx =
        .error ⟨"Unauthorized", 401, some "UNAUTHORIZED"⟩) ∧
    (∀ u, ctx = some u →
      (requireRole roles ctx = .ok () ↔ u.role ∈ roles)) ∧
    (∀ u, ctx = some u → u.role ∉ roles →
      requireRole roles ctx =
        .error ⟨"Forbidden - Insufficient permissions", 403,
          some "FORBIDDEN"⟩) := by
  refine ⟨fun h => ?_, fun u h => ?_, fun u h hr => ?_⟩
  · subst h; rfl
  · subst h
    by_cases hm : u.role ∈ roles
    · simp [requireRole, List.elem_iff, hm]
    · simp [requireRole, List.elem_iff, hm]
  · subst h
    simp [requireRole, List.elem_iff, hr]

/-- Witness for C6 at concrete inputs: with allowed set `[ADMIN, OWNER]`
an ADMIN passes; with allowed set `[ADMIN]` an OWNER is rejected with 403
(no hierarchy); an absent context yields 401. -/
theorem requireRole_spec_witness :
    (requireRole [Role.ADMIN, Role.OWNER]
        (some ⟨"u1", "A", Role.ADMIN⟩) = .ok ()) ∧
    (requireRole [Role.ADMIN] (some ⟨"o1", "A", Role.OWNER⟩) =
      .error ⟨"Forbidden - Insufficient permissions", 403,
        some "FORBIDDEN"⟩) ∧
    (requireRole [Role.ADMIN] none =
      .error ⟨"Unauthorized", 401, some "UNAUTHORIZED"⟩) := by
  have h1 := requireRole_spec [Role.ADMIN, Role.OWNER]
    (some ⟨"u1", "A", Role.ADMIN⟩)
  have h2 := requireRole_spec [Role.ADMIN] (some ⟨"o1", "A", Role.OWNER⟩)
  have h3 := requireRole_spec [Role.ADMIN] (none : Option JwtPayload)
  exact ⟨(h1.2.1 _ rfl).mpr (by decide),
    h2.2.2 _ rfl (by decide), h3.1 rfl⟩

/-- C5: `requireAuth` fails with a 401 error for every request whose
`Authorization` header is absent, whose header does not yield a bearer
token (no `Bearer ` prefix, or an empty token), or whose token fails
verification — and on any failure the downstream handler never executes.
On success it attaches `{userId, companyId, role}` from the verified token
and the downstream handler runs on exactly that identity context. -/
theorem requireAuth_spec (verify : String → Option JwtPayload)
    (authHeader : Option String) :
    (authHeader = none →
      requireAuth verify authHeader = .error authFailedError) ∧
    (∀ h, authHeader = some h → jsStartsWith h "Bearer " = false →
      requireAuth verify authHeader = .error authFailedError) ∧
    (bearerToken authHeader = none ∨ bearerToken authHeader = some "" →
      requireAuth verify authHeader = .error authFailedError) ∧
    (∀ t, bearerToken authHeader = some t → t ≠ "" → verify t = none →
      requireAuth verify authHeader = .error authFailedError) ∧
    authFailedError.statusCode = 401 ∧
    (∀ (α : Type) (handler : JwtPayload → Except AppError α)
        (e : AppError),
      requireAuth verify authHeader = .error e →
      runProtected verify authHeader handler = .error e) ∧
    (∀ t d, bearerToken authHeader = some t → t ≠ "" →
      verify t = some d →
      requireAuth verify authHeader =
        .ok { userId := d.userId, companyId := d.companyId,
              role := d.role } ∧
      ∀ (α : Type) (handler : JwtPayload → Except AppError α),
        runProtected verify authHeader handler =
          handler { userId := d.userId, companyId := d.companyId,
                    role := d.role }) := by
  refine ⟨fun h => ?_, fun h heq hsw => ?_, fun h => ?_,
    fun t hb hne hv => ?_, rfl, fun α handler e he => ?_,
    fun t d hb hne hv => ?_⟩
  · subst h; rfl
  · subst heq
    simp [requireAuth, bearerToken, hsw]
  · rcases h with h | h
    · simp [requireAuth, h]
    · simp [requireAuth, h]
  · simp [requireAuth, hb, hne, hv]
  · unfold runProtected
    rw [he]
    rfl
  · have hok : requireAuth verify authHeader =
        .ok { userId := d.userId, companyId := d.companyId,
              role := d.role } := by
      simp [requireAuth, hb, hne, hv]
    refine ⟨hok, fun α handler => ?_⟩
    unfold runProtected
    rw [hok]
    rfl

/-- A concrete verifier for the C5 witness: accepts exactly the token
`"good"`. -/
def wVerify : String → Option JwtPayload :=
  fun t => if t == "good" then some ⟨"u1", "A", Role.USER⟩ else none

/-- Witness for C5 at concrete inputs: a missing header, a non-Bearer
header, and a bad token all yield the 401 error and short-circuit the
handler; a good token attaches the payload and reaches the handler. -/
theorem requireAuth_spec_witness :
    (requireAuth wVerify none = .error authFailedError) ∧
    (requireAuth wVerify (some "Token abc") = .error authFailedError) ∧
    (requireAuth wVerify (some "Bearer bad") = .error authFailedError) ∧
    (runProtected wVerify (some "Bearer bad")
        (fun u => .ok u.userId) = .error authFailedError) ∧
    (requireAuth wVerify (some "Bearer good") =
      .ok ⟨"u1", "A", Role.USER⟩) ∧
    (runProtected wVerify (some "Bearer good")
        (fun u => .ok u.userId) = .ok "u1") := by
  have h1 := requireAuth_spec wVerify none
  have h2 := requireAuth_spec wVerify (some "Token abc")
  have h3 := requireAuth_spec wVerify (some "Bearer bad")
  have h4 := requireAuth_spec wVerify (some "Bearer good")
  have e3 : requireAuth wVerify (some "Bearer bad") =
      .error authFailedError :=
    h3.2.2.2.1 "bad" rfl (by decide) rfl
  have o4 := h4.2.2.2.2.2.2 "good" ⟨"u1", "A", Role.USER⟩ rfl
    (by decide) rfl
  exact ⟨h1.1 rfl, h2.2.1 "Token abc" rfl (by decide), e3,
    h3.2.2.2.2.2.1 String (fun u => .ok u.userId) authFailedError e3,
    o4.1, by rw [o4.2 String (fun u => .ok u.userId)]⟩

/-- The store used by the C4 witness: the only user with id `u1` lives in
company `B`. -/
def crossTenantStore : Store :=
  [⟨"u1", "Bob", "bob@x.com", "pw-hash", Role.USER, "B", 0, 0⟩]

/-- C4: whenever no user with the given id exists under the caller's
company — including when a user with that id exists under a different
company — `getUserById` fails with the 404 "User not found" error, and
every error it can produce has status 404, never 403 Forbidden. -/
theorem getUserById_spec (store : Store) (companyId id : String)
    (h : ∀ u ∈ store, ¬(u.id = id ∧ u.companyId = companyId)) :
    getUserById store companyId id =
      .error ⟨"User not found", 404, none⟩ ∧
    ∀ e, getUserById store companyId id = .error e →
      e.statusCode = 404 ∧ e.statusCode ≠ 403 := by
  have hf : store.find? (matchesIdCompany companyId id) = none := by
    rw [List.find?_eq_none]
    intro u hu
    simp only [matchesIdCompany, Bool.and_eq_true, beq_iff_eq]
    exact fun hc => h u hu ⟨hc.1, hc.2⟩
  have he : getUserById store companyId id =
      .error ⟨"User not found", 404, none⟩ := by
    simp [getUserById, hf]
  refine ⟨he, fun e h' => ?_⟩
  rw [he] at h'
  cases h'
  exact ⟨rfl, by decide⟩

/-- Witness for C4: looking up id `u1` scoped to company `A` when `u1`
exists only in company `B` reports the 404 error (and never a 403). -/
theorem getUserById_spec_witness :
    getUserById crossTenantStore "A" "u1" =
      .error ⟨"User not found", 404, none⟩ ∧
    ∀ e, getUserById crossTenantStore "A" "u1" = .error e →
      e.statusCode = 404 ∧ e.statusCode ≠ 403 :=
  getUserById_spec crossTenantStore "A" "u1" (by decide)

/-- C7: `getAllUsers(companyId, page, limit)` returns at most `limit`
users, all drawn from rows of `companyId`, obtained by skipping the first
`(page-1)*limit` matching rows in the store's natural order, each
projected to the sanitized field set. -/
theorem getAllUsers_spec (store : Store) (companyId : String)
    (page limit : Nat) (_hp : 1 ≤ page) :
    (getAllUsers store companyId page limit).length ≤ limit ∧
    (∀ s ∈ getAllUsers store companyId page limit,
      ∃ u ∈ store, u.companyId = companyId ∧ s = selectSafe u) ∧
    getAllUsers store companyId page limit =
      (((store.filter (fun u => u.companyId == companyId)).drop
        ((page - 1) * limit)).take limit).map selectSafe := by
  refine ⟨?_, ?_, rfl⟩
  · unfold getAllUsers
    rw [List.length_map]
    exact List.length_take_le _ _
  · intro s hs
    unfold getAllUsers at hs
    rw [List.mem_map] at hs
    obtain ⟨u, hu, rfl⟩ := hs
    have h1 : u ∈ store.filter (fun u => u.companyId == companyId) :=
      List.mem_of_mem_drop (List.mem_of_mem_take hu)
    rw [List.mem_filter] at h1
    exact ⟨u, h1.1, by simpa using h1.2, rfl⟩

/-- The store for the C7 witness: 15 users `u1..u15` in company `A` (in
natural order) and one user of company `B`. -/
def c7Store : Store :=
  ((List.range 15).map (fun i =>
    { id := "u" ++ toString (i + 1), name := "n" ++ toString (i + 1),
      email := "e" ++ toString (i + 1), passwordHash := "pw",
      role := Role.USER, companyId := "A", createdAt := i,
      updatedAt := i })) ++
  [{ id := "x1", name := "nx", email := "ex", passwordHash := "pw",
     role := Role.USER, companyId := "B", createdAt := 99,
     updatedAt := 99 }]

/-- Witness for C7: with `page = 2`, `limit = 10` and 15 users in company
`A`, exactly the 5 users at positions 11–15 are returned, sanitized. -/
theorem getAllUsers_spec_witness :
    (1 : Nat) ≤ 2 ∧
    ((getAllUsers c7Store "A" 2 10).length ≤ 10 ∧
      (∀ s ∈ getAllUsers c7Store "A" 2 10,
        ∃ u ∈ c7Store, u.companyId = "A" ∧ s = selectSafe u) ∧
      getAllUsers c7Store "A" 2 10 =
        (((c7Store.filter (fun u => u.companyId == "A")).drop 10).take
          10).map selectSafe) ∧
    getAllUsers c7Store "A" 2 10 =
      [⟨"u11", "n11", "e11", Role.USER, 10, 10⟩,
       ⟨"u12", "n12", "e12", Role.USER, 11, 11⟩,
       ⟨"u13", "n13", "e13", Role.USER, 12, 12⟩,
       ⟨"u14", "n14", "e14", Role.USER, 13, 13⟩,
       ⟨"u15", "n15", "e15", Role.USER, 14, 14⟩] :=
  ⟨by decide, getAllUsers_spec c7Store "A" 2 10 (by decide), by decide⟩

/-- C9: `createUser` with the role field omitted persists and returns a
record whose role is `USER`; the returned record is the sanitized
projection (id, name, email, role, timestamps — no password material). -/
theorem createUser_spec (store : Store) (newId : String) (now : Nat)
    (name email password companyId : String) :
    (createUser store newId now
      ⟨name, email, password, none, companyId⟩).2.role = Role.USER ∧
    (createUser store newId now
      ⟨name, email, password, none, companyId⟩).1 =
      store ++
        [{ id := newId, name := name, email := email,
           passwordHash := password, role := Role.USER,
           companyId := companyId, createdAt := now, updatedAt := now }] ∧
    (createUser store newId now
      ⟨name, email, password, none, companyId⟩).2 =
      { id := newId, name := name, email := email, role := Role.USER,
        createdAt := now, updatedAt := now } :=
  ⟨rfl, rfl, rfl⟩

/-- The store for the C3 evaluation: the only user with id `u1` lives in
company `B`, so an update scoped to company `A` matches zero rows. -/
def c3Store : Store :=
  [⟨"u1", "Bob", "bob@x.com", "pw-hash", Role.USER, "B", 0, 0⟩]

/-- C3 (code bug evidence): `updateUser` performs no zero-count check —
scoped to company `A`, where no row matches, it returns successfully with
a matched count of 0 instead of failing with `NotFound` (contrast
`deleteUser`, which checks `result.count === 0` and throws 404). -/
theorem updateUser_zero_match_succeeds :
    updateUser c3Store "A" "u1" ⟨some "New Name", none, none⟩ =
      .ok (c3Store, 0) := rfl

/-- Verifier for the C2 evaluation: token `tok-u1` belongs to the USER
`u1` of company `A`. -/
def c2Verify : String → Option JwtPayload :=
  fun t => if t == "tok-u1" then some ⟨"u1", "A", Role.USER⟩ else none

/-- Store for the C2 evaluation: company `A` has OWNER `o1` and USER
`u1`. -/
def c2Store : Store :=
  [⟨"o1", "Olivia", "o@a.com", "pw-hash", Role.OWNER, "A", 0, 0⟩,
   ⟨"u1", "Uma", "u@a.com", "pw-hash", Role.USER, "A", 1, 1⟩]

/-- C2 (code bug evidence): the `PATCH /users/:id` pipeline places
`requireRole(["ADMIN", "OWNER"])` before the handler, so the USER `u1`
updating their own id `u1` is rejected with 403 Forbidden — the
self-update carve-out documented for the route never runs. -/
theorem patch_own_profile_as_user_forbidden :
    patchUserRoute c2Verify (some "Bearer tok-u1") "u1"
      ⟨some "New Name", none, none⟩ c2Store =
      .error ⟨"Forbidden - Insufficient permissions", 403,
        some "FORBIDDEN"⟩ := rfl

/-- C1: tenant isolation. Scoped to company `c1` with `c2 ≠ c1`: every
record returned by `getAllUsers` or `getUserById` originates from a row of
`c1` (never `c2`); `updateUser` leaves every row of `c2` unchanged at its
position; `deleteUser` keeps every row of `c2`, removes no row of a
company other than `c1`, and invents no rows. -/
theorem tenant_isolation (store : Store) (c1 c2 : String)
    (hne : c1 ≠ c2) :
    (∀ page limit s, s ∈ getAllUsers store c1 page limit →
      ∃ u, u ∈ store ∧ u.companyId = c1 ∧ u.companyId ≠ c2 ∧
        s = selectSafe u) ∧
    (∀ id s, getUserById store c1 id = .ok s →
      ∃ u, u ∈ store ∧ u.companyId = c1 ∧ u.companyId ≠ c2 ∧
        s = selectSafe u) ∧
    (∀ id d s' n, updateUser store c1 id d = .ok (s', n) →
      ∀ (i : Nat) (u : User), store[i]? = some u → u.companyId = c2 →
        s'[i]? = some u) ∧
    (∀ id s', deleteUser store c1 id = .ok s' →
      (∀ u, u ∈ store → u.companyId = c2 → u ∈ s') ∧
      (∀ u, u ∈ s' → u ∈ store) ∧
      (∀ u, u ∈ store → u ∉ s' → u.companyId = c1)) := by
  have hc2c1 : ∀ u : User, u.companyId = c2 →
      matchesIdCompany c1 u.id u = false ∧
      ∀ id, matchesIdCompany c1 id u = false := by
    intro u hu
    constructor
    · simp [matchesIdCompany, hu]
      exact fun h => hne h.symm
    · intro id
      simp [matchesIdCompany, hu]
      exact fun _ => fun h => hne h.symm
  refine ⟨fun page limit s hs => ?_, fun id s hs => ?_,
    fun id d s' n he => ?_, fun id s' he => ?_⟩
  · unfold getAllUsers at hs
    rw [List.mem_map] at hs
    obtain ⟨u, hu, rfl⟩ := hs
    have h1 : u ∈ store.filter (fun u => u.companyId == c1) :=
      List.mem_of_mem_drop (List.mem_of_mem_take hu)
    rw [List.mem_filter] at h1
    have hc : u.companyId = c1 := by simpa using h1.2
    exact ⟨u, h1.1, hc, by rw [hc]; exact hne, rfl⟩
  · unfold getUserById at hs
    cases hf : store.find? (matchesIdCompany c1 id) with
    | none => rw [hf] at hs; cases hs
    | some u =>
        rw [hf] at hs
        cases hs
        have hmem := List.mem_of_find?_eq_some hf
        have hp := List.find?_some hf
        simp only [matchesIdCompany, Bool.and_eq_true, beq_iff_eq] at hp
        exact ⟨u, hmem, hp.2, by rw [hp.2]; exact hne, rfl⟩
  · unfold updateUser at he
    rw [Except.ok.injEq, Prod.mk.injEq] at he
    obtain ⟨hs, -⟩ := he
    intro i u hu hc
    rw [← hs, List.getElem?_map, hu]
    have hm : matchesIdCompany c1 id u = false := ((hc2c1 u hc).2) id
    simp [hm]
  · unfold deleteUser at he
    split at he
    · cases he
    · rw [Except.ok.injEq] at he
      subst he
      refine ⟨fun u hu hc => ?_, fun u hu => ?_, fun u hu hn => ?_⟩
      · rw [List.mem_filter]
        exact ⟨hu, by rw [((hc2c1 u hc).2) id]; rfl⟩
      · exact (List.mem_filter.mp hu).1
      · by_contra hcc
        apply hn
        rw [List.mem_filter]
        refine ⟨hu, ?_⟩
        have : matchesIdCompany c1 id u = false := by
          simp [matchesIdCompany]
          exact fun _ => fun h => hcc h
        rw [this]
        rfl

/-- Two-company store for the C1 witness. -/
def c1Store : Store :=
  [⟨"a1", "Ann", "ann@a.com", "pw-hash", Role.ADMIN, "A", 0, 0⟩,
   ⟨"b1", "Ben", "ben@b.com", "pw-hash", Role.OWNER, "B", 1, 1⟩]

/-- Witness for C1 at the concrete companies `A ≠ B` over `c1Store`. -/
theorem tenant_isolation_witness :
    ("A" : String) ≠ "B" ∧
    ((∀ page limit s, s ∈ getAllUsers c1Store "A" page limit →
      ∃ u, u ∈ c1Store ∧ u.companyId = "A" ∧ u.companyId ≠ "B" ∧
        s = selectSafe u) ∧
    (∀ id s, getUserById c1Store "A" id = .ok s →
      ∃ u, u ∈ c1Store ∧ u.companyId = "A" ∧ u.companyId ≠ "B" ∧
        s = selectSafe u) ∧
    (∀ id d s' n, updateUser c1Store "A" id d = .ok (s', n) →
      ∀ (i : Nat) (u : User), c1Store[i]? = some u → u.companyId = "B" →
        s'[i]? = some u) ∧
    (∀ id s', deleteUser c1Store "A" id = .ok s' →
      (∀ u, u ∈ c1Store → u.companyId = "B" → u ∈ s') ∧
      (∀ u, u ∈ s' → u ∈ c1Store) ∧
      (∀ u, u ∈ c1Store → u ∉ s' → u.companyId = "A"))) :=
  ⟨by decide, tenant_isolation c1Store "A" "B" (by decide)⟩

/-- Neither source of a role written by the service — an explicit
`"ADMIN" | "USER"` value or the omitted-role default — is `OWNER`. -/
theorem roleOfCreate_ne_owner (r : Option WritableRole) :
    roleOfCreate r ≠ Role.OWNER := by
  cases r with
  | none => simp [roleOfCreate]
  | some w => cases w <;> simp [roleOfCreate, WritableRole.toRole]

/-- One service operation never adds an `OWNER` row: every `OWNER` in the
resulting store descends from an `OWNER` row with the same id already in
the store. -/
theorem applyOp_owners (store : Store) (op : Op) :
    ∀ u ∈ applyOp store op, u.role = Role.OWNER →
      ∃ v, v ∈ store ∧ v.id = u.id ∧ v.role = Role.OWNER := by
  intro u hu hr
  cases op with
  | create newId now d =>
      unfold applyOp createUser at hu
      rw [List.mem_append] at hu
      cases hu with
      | inl h => exact ⟨u, h, rfl, hr⟩
      | inr h =>
          rw [List.mem_singleton] at h
          subst h
          exact absurd hr (roleOfCreate_ne_owner d.role)
  | update c i d =>
      unfold applyOp updateUser at hu
      rw [List.mem_map] at hu
      obtain ⟨v, hv, heq⟩ := hu
      by_cases hm : matchesIdCompany c i v = true
      · rw [if_pos hm] at heq
        subst heq
        cases hdr : d.role with
        | none =>
            have hid : (applyUpdate d v).id = v.id := rfl
            have : (applyUpdate d v).role = v.role := by
              simp [applyUpdate, hdr]
            exact ⟨v, hv, rfl, by rw [← this]; exact hr⟩
        | some w =>
            have : (applyUpdate d v).role = w.toRole := by
              simp [applyUpdate, hdr]
            rw [this] at hr
            cases w <;> cases hr
      · rw [if_neg hm] at heq
        subst heq
        exact ⟨v, hv, rfl, hr⟩
  | delete c i =>
      simp only [applyOp] at hu
      cases hdel : deleteUser store c i with
      | error e => rw [hdel] at hu; exact ⟨u, hu, rfl, hr⟩
      | ok s' =>
          rw [hdel] at hu
          unfold deleteUser at hdel
          split at hdel
          · cases hdel
          · rw [Except.ok.injEq] at hdel
            subst hdel
            exact ⟨u, (List.mem_filter.mp hu).1, rfl, hr⟩
  | get c i => exact ⟨u, hu, rfl, hr⟩
  | list c p l => exact ⟨u, hu, rfl, hr⟩

/-- C10: across any sequence of Resource Service operations, the set of
`OWNER` users is never enlarged — every `OWNER` row in the final store has
an `OWNER` ancestor with the same id in the initial store (create and
update only accept `ADMIN`/`USER` role values). -/
theorem owner_set_never_enlarged (store : Store) (ops : List Op) :
    ∀ u ∈ runOps store ops, u.role = Role.OWNER →
      ∃ v, v ∈ store ∧ v.id = u.id ∧ v.role = Role.OWNER := by
  induction ops generalizing store with
  | nil => exact fun u hu hr => ⟨u, hu, rfl, hr⟩
  | cons op rest ih =>
      intro u hu hr
      have hstep : runOps store (op :: rest) =
          runOps (applyOp store op) rest := rfl
      rw [hstep] at hu
      obtain ⟨v, hv, hid, hrole⟩ := ih (applyOp store op) u hu hr
      obtain ⟨w, hw, hid2, hrole2⟩ := applyOp_owners store op v hv hrole
      exact ⟨w, hw, by rw [hid2, hid], hrole2⟩

/-- Store and operation sequence for the C10 witness: company `A` starts
with one OWNER; the sequence creates an ADMIN (role given), creates a user
with the role omitted, and updates the second one's role. -/
def c10Store : Store :=
  [⟨"o1", "Olivia", "o@a.com", "pw-hash", Role.OWNER, "A", 0, 0⟩]

/-- The C10 witness operation sequence. -/
def c10Ops : List Op :=
  [Op.create "u2" 5 ⟨"Nate", "n@a.com", "pw", some WritableRole.ADMIN, "A"⟩,
   Op.create "u3" 6 ⟨"Mia", "m@a.com", "pw", none, "A"⟩,
   Op.update "A" "u3" ⟨none, none, some WritableRole.USER⟩,
   Op.delete "A" "u2"]

/-- Witness for C10: after running `c10Ops`, the surviving `OWNER` row
(`o1`, unchanged) is traced back to an `OWNER` with the same id in the
initial store. -/
theorem owner_set_never_enlarged_witness :
    ∃ v, v ∈ c10Store ∧ v.id = "o1" ∧ v.role = Role.OWNER := by
  have h := owner_set_never_enlarged c10Store c10Ops
    ⟨"o1", "Olivia", "o@a.com", "pw-hash", Role.OWNER, "A", 0, 0⟩
    (by decide) rfl
  exact h

end Auditly
